import Mathlib

/-!
# Verification of the I2BA braille converters

Shallow embedding of the two Python source files of the repository:

* `main.py` — `image_to_braille`: still-image → braille text, with an
  `invert` flag and a `try/except` wrapper turning any exception into an
  `"Error: ..."` string.
* `v2ba.py` — `frame_to_braille` (per-frame quantizer with a hard-coded
  black background and unconditional intensity inversion) and
  `video_to_braille_frames` (frame-sampling pipeline).

Pixel buffers are row-major lists of rows of `Nat` intensities (numpy
`uint8` arrays; all genuine values are ≤ 255).  Fallible numpy scalar
indexing is modelled in `Except String`; Python's `try/except` in
`image_to_braille` is the final `match` turning `.error` into an
`"Error: "`-prefixed string.  The external collaborators named by the
spec (image decoding, the LANCZOS resampling primitive, video demuxing)
are passed in as total functions.
-/

namespace I2BA

/-- A decoded grayscale pixel buffer: row-major rows of 8-bit intensities
(`np.array(img)` for an `'L'`-mode image). -/
abbrev Grid := List (List Nat)

/-- numpy `a.shape[0]` — the number of rows. -/
def shape0 (b : Grid) : Nat := b.length

/-- numpy `a.shape[1]` — the (uniform) row length; read off the first row,
which agrees with numpy whenever the buffer is rectangular. -/
def shape1 (b : Grid) : Nat := (b.headD []).length

/-- The rectangularity invariant of a decoded numpy buffer: every row has
the common length `shape1`. -/
def Rect (b : Grid) : Prop := ∀ row ∈ b, row.length = shape1 b

/-- The value stored at row `r`, column `c`, when that position exists. -/
def posVal (b : Grid) (r c : Nat) : Option Nat :=
  match b.get? r with
  | none => none
  | some row => row.get? c

/-- numpy scalar indexing `b[r, c]`: raises `IndexError` when either index
is out of range. -/
def npGet (b : Grid) (r c : Nat) : Except String Nat :=
  match b.get? r with
  | none => .error "IndexError: index out of bounds for axis 0"
  | some row =>
    match row.get? c with
    | none => .error "IndexError: index out of bounds for axis 1"
    | some v => .ok v

/-- One Python statement `if guard and block[r, c] < threshold: bits |= bit`:
contributes `bit` when the guard holds and the pixel is below threshold,
raises when the guard holds but the index does not exist, contributes 0 when
the guard fails (Python `and` short-circuits, so the index is not read). -/
def dotBit (b : Grid) (g : Prop) [Decidable g] (r c t bit : Nat) : Except String Nat :=
  if g then (npGet b r c).map (fun v => if v < t then bit else 0) else .ok 0

/-- The bitmask computation of `main.py`, `image_to_braille` lines 49–75
(note the transposed index pairs `block[0,1]`, `block[0,2]`, `block[1,0]`,
`block[1,2]`, `block[2,0]`, `block[2,1]` of the original). -/
def mainBits (block : Grid) (threshold : Nat) : Except String Nat :=
  if 0 < shape0 block ∧ 0 < shape1 block then do
    let b1 ← dotBit block True 0 0 threshold 0x01
    let b2 ← dotBit block (1 < shape0 block) 0 1 threshold 0x02
    let b3 ← dotBit block (2 < shape0 block) 0 2 threshold 0x04
    let b4 ← dotBit block (1 < shape1 block) 1 0 threshold 0x08
    let b5 ← dotBit block (1 < shape0 block ∧ 1 < shape1 block) 1 1 threshold 0x10
    let b6 ← dotBit block (2 < shape0 block ∧ 1 < shape1 block) 1 2 threshold 0x20
    let b7 ← dotBit block (3 < shape0 block) 2 0 threshold 0x40
    let b8 ← dotBit block (3 < shape0 block ∧ 1 < shape1 block) 2 1 threshold 0x80
    return b1 ||| b2 ||| b3 ||| b4 ||| b5 ||| b6 ||| b7 ||| b8
  else pure 0

/-- The bitmask computation of `v2ba.py`, `frame_to_braille` lines 39–48. -/
def v2baBits (block : Grid) (threshold : Nat) : Except String Nat :=
  if 0 < shape0 block ∧ 0 < shape1 block then do
    let b1 ← dotBit block True 0 0 threshold 0x01
    let b2 ← dotBit block (1 < shape0 block) 1 0 threshold 0x02
    let b3 ← dotBit block (2 < shape0 block) 2 0 threshold 0x04
    let b4 ← dotBit block (1 < shape1 block) 0 1 threshold 0x08
    let b5 ← dotBit block (1 < shape0 block ∧ 1 < shape1 block) 1 1 threshold 0x10
    let b6 ← dotBit block (2 < shape0 block ∧ 1 < shape1 block) 2 1 threshold 0x20
    let b7 ← dotBit block (3 < shape0 block) 3 0 threshold 0x40
    let b8 ← dotBit block (3 < shape0 block ∧ 1 < shape1 block) 3 1 threshold 0x80
    return b1 ||| b2 ||| b3 ||| b4 ||| b5 ||| b6 ||| b7 ||| b8
  else pure 0

/-- The 2×4 block `pixels[y:min(y+4, shape0), x:min(x+2, shape1)]`; Python
slicing clamps at the end of the buffer, which is exactly `drop`/`take`. -/
def blockAt (px : Grid) (y x : Nat) : Grid :=
  ((px.drop y).take 4).map fun row => (row.drop x).take 2

/-- `pixels = 255 - pixels` (numpy broadcasting over a `uint8` array whose
values are ≤ 255). -/
def invertGrid (px : Grid) : Grid := px.map (List.map (fun v => 255 - v))

/-- The double loop of `image_to_braille` (`for y in range(0, height*4, 4)`,
`for x in range(0, width, 2)`), producing the grid of glyph codepoints
`0x2800 + bits`; the first numpy `IndexError` aborts the whole conversion. -/
def mainCore (pixels : Grid) (width height threshold : Nat) :
    Except String (List (List Nat)) :=
  (List.range height).mapM fun ry =>
    (List.range ((width + 1) / 2)).mapM fun rx =>
      (mainBits (blockAt pixels (ry * 4) (rx * 2)) threshold).map
        (fun bits => 0x2800 + bits)

/-- The double loop of `frame_to_braille` (`for y in range(0, height*4, 4)`,
`for x in range(0, width, 2)`). -/
def frameCore (pixels : Grid) (width height threshold : Nat) :
    Except String (List (List Nat)) :=
  (List.range height).mapM fun ry =>
    (List.range ((width + 1) / 2)).mapM fun rx =>
      (v2baBits (blockAt pixels (ry * 4) (rx * 2)) threshold).map
        (fun bits => 0x2800 + bits)

/-- The quantizer of `main.py` on the resized buffer: optional inversion
(`if invert: pixels = 255 - pixels`, lines 29–30) followed by the loop. -/
def mainQuantize (px : Grid) (width height threshold : Nat) (invert : Bool) :
    Except String (List (List Nat)) :=
  mainCore (if invert then invertGrid px else px) width height threshold

/-- The quantizer of `v2ba.py` on the resized buffer: the inversion
`pixels = 255 - pixels` (line 32) is unconditional. -/
def frameQuantize (px : Grid) (width height threshold : Nat) :
    Except String (List (List Nat)) :=
  frameCore (invertGrid px) width height threshold

/-- `height = int(width * (img.height / img.width) * 0.5)` evaluated in
exact arithmetic: `⌊width·imgHeight / (2·imgWidth)⌋`. -/
def charRows (width imgHeight imgWidth : Nat) : Nat :=
  width * imgHeight / (2 * imgWidth)

/-- One row of glyphs as a string. -/
def rowString (row : List Nat) : String :=
  String.join (row.map fun cp => String.singleton (Char.ofNat cp))

/-- `main.py` joins the characters appending `'\n'` after every row. -/
def renderGrid (g : List (List Nat)) : String :=
  String.join (g.map fun row => rowString row ++ "\n")

/-- `v2ba.py` joins the rows with `'\n'.join(...)`. -/
def renderFrame (g : List (List Nat)) : String :=
  String.intercalate "\n" (g.map rowString)

/-- `image_to_braille(image_path, width, threshold, invert)` of `main.py`.
`resize w h` stands for the external collaborators
`np.array(Image.open(path).convert('L').resize((w, h), LANCZOS))`, a total
resampling primitive per spec §1; `imgWidth`/`imgHeight` are the decoded
source dimensions.  The `try/except` wrapper is the `if`/`match`: a zero
source width makes `aspect_ratio = img.height / img.width` raise
`ZeroDivisionError`, and any `IndexError` inside the loop is caught the same
way, both returning an `"Error: "`-prefixed string. -/
def image_to_braille (resize : Nat → Nat → Grid) (imgWidth imgHeight : Nat)
    (width threshold : Nat) (invert : Bool) : String :=
  if imgWidth = 0 then "Error: division by zero"
  else
    match mainQuantize (resize width (charRows width imgHeight imgWidth * 4))
        width (charRows width imgHeight imgWidth) threshold invert with
    | .ok g => renderGrid g
    | .error e => "Error: " ++ e

/-- PIL image modes that the compositing branch of `frame_to_braille`
distinguishes. -/
inductive PILMode | RGB | RGBA | LA | L | P
deriving DecidableEq, Repr

/-- A decoded PIL image: mode, size, row-major pixels (each pixel a list of
channel values), palette (for `P` mode) and whether `'transparency'` is a
key of `img.info`. -/
structure PILImage where
  mode : PILMode
  width : Nat
  height : Nat
  px : List (List (List Nat))
  palette : List (List Nat)
  infoTransparency : Bool
deriving Repr

/-- ITU-R 601-2 luma used by PIL `convert('L')`:
`L = (R*299 + G*587 + B*114) // 1000`. -/
def luma (r g b : Nat) : Nat := (r * 299 + g * 587 + b * 114) / 1000

/-- PIL `convert('L')` on one pixel of the given mode. -/
def pixelToL (mode : PILMode) (palette : List (List Nat)) (p : List Nat) : Nat :=
  match mode with
  | .L => p.headD 0
  | .LA => p.headD 0
  | .RGB => luma (p.getD 0 0) (p.getD 1 0) (p.getD 2 0)
  | .RGBA => luma (p.getD 0 0) (p.getD 1 0) (p.getD 2 0)
  | .P =>
    let e := palette.getD (p.headD 0) []
    luma (e.getD 0 0) (e.getD 1 0) (e.getD 2 0)

/-- Direct grayscale conversion `img.convert('L')`. -/
def convertL (img : PILImage) : Grid :=
  img.px.map (List.map (pixelToL img.mode img.palette))

/-- One pixel lifted to RGBA (the `img.convert('RGBA')` step of the
transparency branch). -/
def pixelToRGBA (img : PILImage) (p : List Nat) : Nat × Nat × Nat × Nat :=
  match img.mode with
  | .RGBA => (p.getD 0 0, p.getD 1 0, p.getD 2 0, p.getD 3 255)
  | .LA => (p.headD 0, p.headD 0, p.headD 0, p.getD 1 255)
  | .P =>
    let e := img.palette.getD (p.headD 0) []
    (e.getD 0 0, e.getD 1 0, e.getD 2 0, e.getD 3 255)
  | .RGB => (p.getD 0 0, p.getD 1 0, p.getD 2 0, 255)
  | .L => (p.headD 0, p.headD 0, p.headD 0, 255)

/-- Alpha blending of one channel onto a solid background
(`background.paste(img, (0, 0), img)` with `img`'s alpha as mask). -/
def blend (bgc fg a : Nat) : Nat := (bgc * (255 - a) + fg * a) / 255

/-- The background choice of spec §4.2. -/
inductive Background | black | white | none
deriving DecidableEq, Repr

/-- The solid background color used for compositing. -/
def bgColor : Background → Nat
  | .black => 0
  | .white => 255
  | .none => 0

/-- Modelled from the spec: the background compositor of §4.2.  Only the
`black` branch is under `src/` (`v2ba.py`, `frame_to_braille` lines 12–25);
the `white` and `none` variants live in the repository's other script
copies, which are not part of `src/`, and follow the spec's words
(`none` means no alpha handling, the source is converted as-is).  The
branch condition is `v2ba.py` line 13:
`img.mode in ('RGBA', 'LA') or (img.mode == 'P' and 'transparency' in img.info)`. -/
def composite (bg : Background) (img : PILImage) : Grid :=
  if (img.mode = .RGBA ∨ img.mode = .LA) ∨ (img.mode = .P ∧ img.infoTransparency) then
    match bg with
    | .none => convertL img
    | _ =>
      let c := bgColor bg
      img.px.map (List.map fun p =>
        let (r, g, b, a) := pixelToRGBA img p
        luma (blend c r a) (blend c g a) (blend c b a))
  else convertL img

/-- `frame_to_braille(frame, width, threshold)` of `v2ba.py`: composite onto
a black background, derive the character row count from the aspect ratio,
resize (external primitive, passed in as a total function), invert and
quantize, and join the rows.  There is no `try/except`: a zero-width frame
makes `aspect = img.height / img.width` raise `ZeroDivisionError`, modelled
as an `.error` that propagates. -/
def frame_to_braille (resize : Grid → Nat → Nat → Grid) (img : PILImage)
    (width threshold : Nat) : Except String String :=
  if img.width = 0 then .error "ZeroDivisionError: division by zero"
  else
    (frameQuantize
        (resize (composite .black img) width (charRows width img.height img.width * 4))
        width (charRows width img.height img.width) threshold).map renderFrame

/-- A sampled frame, after spec §3: running sample `index`, the source-frame
`counter` it was read at (whose timestamp is `counter / video_fps`), and the
converted text (`frames_data.append({..., "content": ..., "index": ...})`). -/
structure FrameSample where
  index : Nat
  counter : Nat
  glyph_text : String
deriving Repr, DecidableEq

/-- The `while True` loop of `video_to_braille_frames` (lines 81–110):
stop when the source is exhausted (`not ret`) or
`max_duration > 0 and frame_count / video_fps > max_duration`; sample when
`frame_count % frame_skip == 0`.  `conv` stands for the per-frame conversion
`frame_to_braille(cv2.cvtColor(frame, COLOR_BGR2RGB), width, 150)`. -/
def pipelineLoop {F : Type} (conv : F → String) (frame_skip video_fps : Nat)
    (max_duration : ℚ) : List F → Nat → Nat → List FrameSample
  | [], _, _ => []
  | f :: rest, frame_count, extracted_count =>
    if 0 < max_duration ∧ max_duration < (frame_count : ℚ) / (video_fps : ℚ) then []
    else if frame_count % frame_skip = 0 then
      { index := extracted_count, counter := frame_count, glyph_text := conv f } ::
        pipelineLoop conv frame_skip video_fps max_duration rest
          (frame_count + 1) (extracted_count + 1)
    else
      pipelineLoop conv frame_skip video_fps max_duration rest
        (frame_count + 1) extracted_count

/-- `video_to_braille_frames(video_path, output_dir, fps, width, max_duration)`
of `v2ba.py`, restricted to its core per spec §4.3: the decoded source is the
finite frame list `frames` with native rate `video_fps`;
`frame_skip = max(1, video_fps // fps)` (line 71).  File naming, `frames.json`
and printing are external-collaborator concerns. -/
def video_to_braille_frames {F : Type} (frames : List F) (video_fps fps : Nat)
    (max_duration : ℚ) (conv : F → String) : List FrameSample :=
  pipelineLoop conv (max 1 (video_fps / fps)) video_fps max_duration frames 0 0

/-- The canonical dot table of spec §4.1: bit 0x01 at block position (0,0),
0x02 at (1,0), 0x04 at (2,0), 0x08 at (0,1), 0x10 at (1,1), 0x20 at (2,1),
0x40 at (3,0), 0x80 at (3,1); a position that exists contributes its bit
exactly when its value is below the threshold, a missing position
contributes 0. -/
def posOn (b : Grid) (r c t : Nat) : Bool :=
  match posVal b r c with
  | some v => decide (v < t)
  | none => false

/-- The bitmask assembled from the spec's canonical table. -/
def specBits (b : Grid) (t : Nat) : Nat :=
  (if posOn b 0 0 t then 0x01 else 0) |||
  (if posOn b 1 0 t then 0x02 else 0) |||
  (if posOn b 2 0 t then 0x04 else 0) |||
  (if posOn b 0 1 t then 0x08 else 0) |||
  (if posOn b 1 1 t then 0x10 else 0) |||
  (if posOn b 2 1 t then 0x20 else 0) |||
  (if posOn b 3 0 t then 0x40 else 0) |||
  (if posOn b 3 1 t then 0x80 else 0)

/-- Whether a position exists in the buffer at all. -/
def posHere (b : Grid) (r c : Nat) : Bool := (posVal b r c).isSome

/-- The mask of all positions that exist in the block. -/
def existBits (b : Grid) : Nat :=
  (if posHere b 0 0 then 0x01 else 0) |||
  (if posHere b 1 0 then 0x02 else 0) |||
  (if posHere b 2 0 then 0x04 else 0) |||
  (if posHere b 0 1 then 0x08 else 0) |||
  (if posHere b 1 1 then 0x10 else 0) |||
  (if posHere b 2 1 then 0x20 else 0) |||
  (if posHere b 3 0 then 0x40 else 0) |||
  (if posHere b 3 1 then 0x80 else 0)

/-- Dot predicate of `frame_to_braille` stated on the un-inverted buffer: a
dot at absolute position (i, j) is on when the position exists and
`255 - v < threshold`. -/
def invDotOn (px : Grid) (i j t : Nat) : Bool :=
  match posVal px i j with
  | some v => decide (255 - v < t)
  | none => false

/-- The mask of the block at (y, x) of the un-inverted buffer under the
unconditional inversion of `frame_to_braille`. -/
def invBits (px : Grid) (y x t : Nat) : Nat :=
  (if invDotOn px (y + 0) (x + 0) t then 0x01 else 0) |||
  (if invDotOn px (y + 1) (x + 0) t then 0x02 else 0) |||
  (if invDotOn px (y + 2) (x + 0) t then 0x04 else 0) |||
  (if invDotOn px (y + 0) (x + 1) t then 0x08 else 0) |||
  (if invDotOn px (y + 1) (x + 1) t then 0x10 else 0) |||
  (if invDotOn px (y + 2) (x + 1) t then 0x20 else 0) |||
  (if invDotOn px (y + 3) (x + 0) t then 0x40 else 0) |||
  (if invDotOn px (y + 3) (x + 1) t then 0x80 else 0)

/-! ## Helper lemmas -/

theorem npGet_eq_ok {b : Grid} {r c v : Nat} (h : posVal b r c = some v) :
    npGet b r c = .ok v := by
  cases hr : b[r]? with
  | none => simp [posVal, hr] at h
  | some row =>
    cases hc : row[c]? with
    | none => simp [posVal, hr, hc] at h
    | some w =>
      simp only [posVal, List.get?_eq_getElem?, hr, hc] at h
      cases h
      simp [npGet, hr, hc]

theorem dotBit_of_iff {b : Grid} {g : Prop} [Decidable g] {r c t bit : Nat}
    (h : g ↔ ∃ v, posVal b r c = some v) :
    dotBit b g r c t bit = .ok (if posOn b r c t then bit else 0) := by
  unfold dotBit
  by_cases hg : g
  · obtain ⟨v, hv⟩ := h.mp hg
    rw [if_pos hg, npGet_eq_ok hv]
    unfold posOn
    rw [hv]
    by_cases hvt : v < t
    · simp [hvt, Except.map]
    · simp [hvt, Except.map]
  · have hnone : posVal b r c = none := by
      cases hp : posVal b r c with
      | none => rfl
      | some v => exact absurd (h.mpr ⟨v, hp⟩) hg
    rw [if_neg hg]
    unfold posOn
    rw [hnone]
    rfl

theorem posVal_some_iff {b : Grid} (hb : Rect b) (r c : Nat) :
    (∃ v, posVal b r c = some v) ↔ r < shape0 b ∧ c < shape1 b := by
  constructor
  · rintro ⟨v, hv⟩
    cases hr : b[r]? with
    | none => simp [posVal, hr] at hv
    | some row =>
      simp only [posVal, List.get?_eq_getElem?, hr] at hv
      have hrl : r < b.length := by
        by_contra hcon
        rw [List.getElem?_eq_none (Nat.le_of_not_lt hcon)] at hr
        cases hr
      have hcl : c < row.length := by
        by_contra hcon
        rw [List.getElem?_eq_none (Nat.le_of_not_lt hcon)] at hv
        cases hv
      have hm : row ∈ b := List.get?_mem (by rw [List.get?_eq_getElem?]; exact hr)
      exact ⟨hrl, (hb row hm) ▸ hcl⟩
  · rintro ⟨hr, hc⟩
    obtain ⟨row, hrow⟩ : ∃ row, b[r]? = some row := by
      cases h : b[r]? with
      | none =>
        exfalso
        rw [List.getElem?_eq_getElem hr] at h
        cases h
      | some row => exact ⟨row, rfl⟩
    have hcc : c < row.length := by
      rw [hb row (List.get?_mem (by rw [List.get?_eq_getElem?]; exact hrow))]
      exact hc
    obtain ⟨v, hv⟩ : ∃ v, row[c]? = some v := by
      cases h : row[c]? with
      | none =>
        exfalso
        rw [List.getElem?_eq_getElem hcc] at h
        cases h
      | some v => exact ⟨v, rfl⟩
    exact ⟨v, by simp [posVal, hrow, hv]⟩

/-- The guarded dot computation of `frame_to_braille` agrees with the
canonical table of spec §4.1 on every rectangular block. -/
theorem v2baBits_spec {b : Grid} (hb : Rect b) (t : Nat) :
    v2baBits b t = .ok (specBits b t) := by
  by_cases h0 : 0 < shape0 b ∧ 0 < shape1 b
  · have e1 : dotBit b True 0 0 t 0x01 = .ok (if posOn b 0 0 t then 0x01 else 0) :=
      dotBit_of_iff (by rw [posVal_some_iff hb]; exact ⟨fun _ => h0, fun _ => trivial⟩)
    have e2 : dotBit b (1 < shape0 b) 1 0 t 0x02
        = .ok (if posOn b 1 0 t then 0x02 else 0) :=
      dotBit_of_iff (by rw [posVal_some_iff hb]; exact ⟨fun h => ⟨h, h0.2⟩, fun h => h.1⟩)
    have e3 : dotBit b (2 < shape0 b) 2 0 t 0x04
        = .ok (if posOn b 2 0 t then 0x04 else 0) :=
      dotBit_of_iff (by rw [posVal_some_iff hb]; exact ⟨fun h => ⟨h, h0.2⟩, fun h => h.1⟩)
    have e4 : dotBit b (1 < shape1 b) 0 1 t 0x08
        = .ok (if posOn b 0 1 t then 0x08 else 0) :=
      dotBit_of_iff (by rw [posVal_some_iff hb]; exact ⟨fun h => ⟨h0.1, h⟩, fun h => h.2⟩)
    have e5 : dotBit b (1 < shape0 b ∧ 1 < shape1 b) 1 1 t 0x10
        = .ok (if posOn b 1 1 t then 0x10 else 0) :=
      dotBit_of_iff (by rw [posVal_some_iff hb])
    have e6 : dotBit b (2 < shape0 b ∧ 1 < shape1 b) 2 1 t 0x20
        = .ok (if posOn b 2 1 t then 0x20 else 0) :=
      dotBit_of_iff (by rw [posVal_some_iff hb])
    have e7 : dotBit b (3 < shape0 b) 3 0 t 0x40
        = .ok (if posOn b 3 0 t then 0x40 else 0) :=
      dotBit_of_iff (by rw [posVal_some_iff hb]; exact ⟨fun h => ⟨h, h0.2⟩, fun h => h.1⟩)
    have e8 : dotBit b (3 < shape0 b ∧ 1 < shape1 b) 3 1 t 0x80
        = .ok (if posOn b 3 1 t then 0x80 else 0) :=
      dotBit_of_iff (by rw [posVal_some_iff hb])
    unfold v2baBits
    rw [if_pos h0]
    simp only [e1, e2, e3, e4, e5, e6, e7, e8]
    rfl
  · have hnone : ∀ r c, posOn b r c t = false := by
      intro r c
      unfold posOn
      cases hp : posVal b r c with
      | none => rfl
      | some v =>
        exfalso
        have hx := (posVal_some_iff hb r c).mp ⟨v, hp⟩
        exact h0 ⟨Nat.lt_of_le_of_lt (Nat.zero_le r) hx.1,
          Nat.lt_of_le_of_lt (Nat.zero_le c) hx.2⟩
    unfold v2baBits specBits
    rw [if_neg h0]
    simp only [hnone]
    rfl

theorem posVal_blockAt (px : Grid) (y x r c : Nat) (hr : r < 4) (hc : c < 2) :
    posVal (blockAt px y x) r c = posVal px (y + r) (x + c) := by
  unfold blockAt posVal
  simp only [List.get?_eq_getElem?]
  rw [List.getElem?_map, List.getElem?_take, if_pos hr, List.getElem?_drop]
  cases hpx : px[y + r]? with
  | none => rfl
  | some row =>
    simp only [Option.map_some']
    rw [List.getElem?_take, if_pos hc, List.getElem?_drop]

theorem posVal_invertGrid (px : Grid) (i j : Nat) :
    posVal (invertGrid px) i j = (posVal px i j).map (fun v => 255 - v) := by
  unfold invertGrid posVal
  simp only [List.get?_eq_getElem?]
  rw [List.getElem?_map]
  cases hpx : px[i]? with
  | none => rfl
  | some row =>
    simp [List.getElem?_map]

theorem shape1_invertGrid (px : Grid) : shape1 (invertGrid px) = shape1 px := by
  cases px with
  | nil => rfl
  | cons r rest => simp [invertGrid, shape1]

theorem rect_invertGrid {px : Grid} (h : Rect px) : Rect (invertGrid px) := by
  intro row hrow
  rw [shape1_invertGrid]
  obtain ⟨r, hr, rfl⟩ := List.mem_map.mp hrow
  simp only [List.length_map]
  exact h r hr

theorem rect_blockAt {px : Grid} (h : Rect px) (y x : Nat) :
    Rect (blockAt px y x) := by
  intro row hrow
  unfold blockAt at hrow ⊢
  obtain ⟨r, hr, rfl⟩ := List.mem_map.mp hrow
  have hrpx : r ∈ px := List.mem_of_mem_drop (List.mem_of_mem_take hr)
  cases hblk : (px.drop y).take 4 with
  | nil => rw [hblk] at hr; cases hr
  | cons r0 rest =>
    have hr0tk : r0 ∈ (px.drop y).take 4 := by
      rw [hblk]; exact List.mem_cons_self r0 rest
    have hr0px : r0 ∈ px := List.mem_of_mem_drop (List.mem_of_mem_take hr0tk)
    simp only [shape1, List.map_cons, List.headD_cons, List.length_take,
      List.length_drop]
    rw [h r hrpx, h r0 hr0px]

theorem mapM_ok {α β : Type} (f : α → Except String β) (g : α → β) :
    ∀ l : List α, (∀ a ∈ l, f a = .ok (g a)) → l.mapM f = .ok (l.map g) := by
  intro l
  induction l with
  | nil => intro _; rfl
  | cons a rest ih =>
    intro h
    rw [List.mapM_cons, h a (List.mem_cons_self a rest),
      ih (fun b hb => h b (List.mem_cons_of_mem a hb))]
    rfl

theorem posOn_blockAt_invert (px : Grid) (y x r c t : Nat) (hr : r < 4) (hc : c < 2) :
    posOn (blockAt (invertGrid px) y x) r c t = invDotOn px (y + r) (x + c) t := by
  unfold posOn invDotOn
  rw [posVal_blockAt _ _ _ _ _ hr hc, posVal_invertGrid]
  cases posVal px (y + r) (x + c) with
  | none => rfl
  | some v => rfl

theorem specBits_blockAt_invert (px : Grid) (y x t : Nat) :
    specBits (blockAt (invertGrid px) y x) t = invBits px y x t := by
  unfold specBits invBits
  rw [posOn_blockAt_invert px y x 0 0 t (by omega) (by omega),
    posOn_blockAt_invert px y x 1 0 t (by omega) (by omega),
    posOn_blockAt_invert px y x 2 0 t (by omega) (by omega),
    posOn_blockAt_invert px y x 0 1 t (by omega) (by omega),
    posOn_blockAt_invert px y x 1 1 t (by omega) (by omega),
    posOn_blockAt_invert px y x 2 1 t (by omega) (by omega),
    posOn_blockAt_invert px y x 3 0 t (by omega) (by omega),
    posOn_blockAt_invert px y x 3 1 t (by omega) (by omega)]

/-- Full characterization of the `v2ba.py` quantizer on a rectangular
resized buffer: it never fails, and every cell is `0x2800` plus the mask of
those dots whose position exists and whose original intensity `v` satisfies
`255 - v < threshold`. -/
theorem frameQuantize_spec {px : Grid} (hpx : Rect px) (w h t : Nat) :
    frameQuantize px w h t =
      .ok ((List.range h).map fun ry =>
        (List.range ((w + 1) / 2)).map fun rx =>
          0x2800 + invBits px (ry * 4) (rx * 2) t) := by
  unfold frameQuantize frameCore
  apply mapM_ok
  intro ry _
  apply mapM_ok
  intro rx _
  rw [v2baBits_spec (rect_blockAt (rect_invertGrid hpx) (ry * 4) (rx * 2)) t,
    specBits_blockAt_invert]
  rfl

theorem mainQuantize_height_zero (px : Grid) (w t : Nat) (inv : Bool) :
    mainQuantize px w 0 t inv = .ok [] := rfl

theorem frameQuantize_height_zero (px : Grid) (w t : Nat) :
    frameQuantize px w 0 t = .ok [] := rfl

theorem posVal_mem {b : Grid} {r c v : Nat} (h : posVal b r c = some v) :
    ∃ row ∈ b, v ∈ row := by
  cases hr : b[r]? with
  | none => simp [posVal, hr] at h
  | some row =>
    simp only [posVal, List.get?_eq_getElem?, hr] at h
    exact ⟨row, List.get?_mem (by rw [List.get?_eq_getElem?]; exact hr),
      List.get?_mem (by rw [List.get?_eq_getElem?]; exact h)⟩

theorem posOn_of_big {b : Grid} {t : Nat}
    (hv : ∀ row ∈ b, ∀ v ∈ row, v ≤ 255) (ht : 255 < t) (r c : Nat) :
    posOn b r c t = posHere b r c := by
  unfold posOn posHere
  cases hp : posVal b r c with
  | none => rfl
  | some v =>
    obtain ⟨row, hrow, hvr⟩ := posVal_mem hp
    have : v < t := Nat.lt_of_le_of_lt (hv row hrow v hvr) ht
    simp [this]

theorem specBits_of_big {b : Grid} {t : Nat}
    (hv : ∀ row ∈ b, ∀ v ∈ row, v ≤ 255) (ht : 255 < t) :
    specBits b t = existBits b := by
  unfold specBits existBits
  rw [posOn_of_big hv ht, posOn_of_big hv ht, posOn_of_big hv ht, posOn_of_big hv ht,
    posOn_of_big hv ht, posOn_of_big hv ht, posOn_of_big hv ht, posOn_of_big hv ht]

theorem pipelineLoop_counters {F : Type} (conv : F → String) (skip nf : Nat)
    (md : ℚ) (hmd : md ≤ 0) :
    ∀ (l : List F) (c e : Nat),
      (pipelineLoop conv skip nf md l c e).map FrameSample.counter
        = ((List.range l.length).map fun i => c + i).filter
            fun k => decide (k % skip = 0) := by
  intro l
  induction l with
  | nil => intro c e; rfl
  | cons f rest ih =>
    intro c e
    have hcut : ¬(0 < md ∧ md < (c : ℚ) / (nf : ℚ)) :=
      fun hx => absurd hx.1 (not_lt.mpr hmd)
    have hrange : ((List.range (rest.length + 1)).map fun i => c + i)
        = c :: ((List.range rest.length).map fun i => (c + 1) + i) := by
      rw [List.range_succ_eq_map]
      simp only [List.map_cons, List.map_map, Nat.add_zero]
      congr 1
      apply List.map_congr_left
      intro a _
      simp only [Function.comp_apply, Nat.succ_eq_add_one]
      omega
    unfold pipelineLoop
    rw [if_neg hcut]
    by_cases hc : c % skip = 0
    · rw [if_pos hc]
      simp only [List.length_cons, List.map_cons]
      rw [hrange, ih (c + 1) (e + 1), List.filter_cons]
      simp [hc]
    · rw [if_neg hc]
      simp only [List.length_cons]
      rw [hrange, ih (c + 1) e, List.filter_cons]
      simp [hc]

theorem pipelineLoop_cutoff {F : Type} (conv : F → String) (skip nf : Nat)
    (md : ℚ) (hmd : 0 < md) :
    ∀ (l : List F) (c e : Nat) (s : FrameSample),
      s ∈ pipelineLoop conv skip nf md l c e → (s.counter : ℚ) / (nf : ℚ) ≤ md := by
  intro l
  induction l with
  | nil => intro c e s hs; simp [pipelineLoop] at hs
  | cons f rest ih =>
    intro c e s hs
    unfold pipelineLoop at hs
    by_cases hcut : 0 < md ∧ md < (c : ℚ) / (nf : ℚ)
    · rw [if_pos hcut] at hs
      simp at hs
    · rw [if_neg hcut] at hs
      have hle : (c : ℚ) / (nf : ℚ) ≤ md := by
        rcases not_and_or.mp hcut with h | h
        · exact absurd hmd h
        · exact le_of_not_lt h
      by_cases hc : c % skip = 0
      · rw [if_pos hc] at hs
        rcases List.mem_cons.mp hs with h | h
        · rw [h]
          exact hle
        · exact ih (c + 1) (e + 1) s h
      · rw [if_neg hc] at hs
        exact ih (c + 1) e s hs

theorem video_counters {F : Type} (frames : List F) (nf fps : Nat) (md : ℚ)
    (conv : F → String) (hmd : md ≤ 0) :
    (video_to_braille_frames frames nf fps md conv).map FrameSample.counter
      = (List.range frames.length).filter
          fun c => decide (c % max 1 (nf / fps) = 0) := by
  unfold video_to_braille_frames
  rw [pipelineLoop_counters conv (max 1 (nf / fps)) nf md hmd frames 0 0]
  congr 1
  simp

/-! ## Claims -/

/-- C1: the `v2ba.py` quantizer maps every braille dot to its 2×4 block
position exactly per the canonical table of spec §4.1 (proved for every
rectangular block), and on the spec's concrete block
`[[0,255],[0,255],[0,255],[0,255]]` with threshold 128 it yields mask
0x47, i.e. codepoint 0x2800 + 0x47 = 0x2847.  The `main.py` quantizer does
NOT follow the table: on that very block its bit extraction reads
`block[0, 2]` (row 0, column 2 — outside a 2-wide block) and raises
`IndexError` instead of producing 0x47. -/
theorem claim_C1_dot_table :
    (∀ (b : Grid) (t : Nat), Rect b → v2baBits b t = .ok (specBits b t))
    ∧ v2baBits [[0, 255], [0, 255], [0, 255], [0, 255]] 128 = .ok 0x47
    ∧ (mainBits [[0, 255], [0, 255], [0, 255], [0, 255]] 128).isOk = false :=
  ⟨fun _ t hb => v2baBits_spec hb t, rfl, rfl⟩

/-- Witness for C1 at the concrete rectangular block `[[5]]`. -/
theorem claim_C1_witness :
    Rect [[5]] ∧ v2baBits [[5]] 7 = .ok (specBits [[5]] 7) :=
  ⟨by unfold Rect; decide, claim_C1_dot_table.1 [[5]] 7 (by unfold Rect; decide)⟩

/-- C2: the `v2ba.py` quantizer never indexes outside the pixel buffer —
on every rectangular grid (including grids with fewer than 4 rows or fewer
than 2 columns) it returns a glyph grid, and a missing dot position
contributes a zero bit (on the 1×1 block `[[3]]` only dot 1 can be set).
The `main.py` quantizer violates this: on the 2×1 grid `[[0],[0]]`
(width 1 < 2) it reads `block[0, 1]` under the guard `shape[0] > 1` and
raises `IndexError`. -/
theorem claim_C2_bounds :
    (∀ (px : Grid) (w h t : Nat), Rect px → ∃ g, frameQuantize px w h t = .ok g)
    ∧ v2baBits [[3]] 128 = .ok 0x01
    ∧ (mainQuantize [[0], [0]] 1 1 128 false).isOk = false :=
  ⟨fun _ w h t hpx => ⟨_, frameQuantize_spec hpx w h t⟩, rfl, rfl⟩

/-- Witness for C2 at the 1×1 grid `[[0]]` (height 1 < 4, width 1 < 2). -/
theorem claim_C2_witness :
    Rect [[0]] ∧ ∃ g, frameQuantize [[0]] 1 1 128 = .ok g :=
  ⟨by unfold Rect; decide, claim_C2_bounds.1 [[0]] 1 1 128 (by unfold Rect; decide)⟩

/-- C3: whenever the derived `character_rows` value is 0, both conversions
return an empty glyph grid (rendered as the empty string) and no error:
`image_to_braille` takes its `.ok` branch with zero loop iterations, and
`frame_to_braille` returns `.ok ""`. -/
theorem claim_C3_empty_grid :
    (∀ (resize : Nat → Nat → Grid) (imgWidth imgHeight width threshold : Nat)
        (invert : Bool), 0 < imgWidth → charRows width imgHeight imgWidth = 0 →
        image_to_braille resize imgWidth imgHeight width threshold invert = "")
    ∧ (∀ (resize : Grid → Nat → Nat → Grid) (img : PILImage) (width threshold : Nat),
        0 < img.width → charRows width img.height img.width = 0 →
        frame_to_braille resize img width threshold = .ok "") := by
  constructor
  · intro resize imgWidth imgHeight width threshold invert h hcr
    unfold image_to_braille
    rw [if_neg (Nat.pos_iff_ne_zero.mp h), hcr, mainQuantize_height_zero]
    rfl
  · intro resize img width threshold h hcr
    unfold frame_to_braille
    rw [if_neg (Nat.pos_iff_ne_zero.mp h), hcr, frameQuantize_height_zero]
    rfl

/-- Witness for C3: a 2×0 source image (aspect ratio 0) gives
`character_rows = 0` and an empty, error-free output on both paths. -/
theorem claim_C3_witness :
    image_to_braille (fun _ _ => []) 2 0 10 128 false = ""
    ∧ frame_to_braille (fun _ _ _ => []) ⟨PILMode.L, 2, 0, [], [], false⟩ 10 128
        = .ok "" :=
  ⟨claim_C3_empty_grid.1 (fun _ _ => []) 2 0 10 128 false (by decide) (by decide),
   claim_C3_empty_grid.2 (fun _ _ _ => []) ⟨PILMode.L, 2, 0, [], [], false⟩ 10 128
     (by decide) (by decide)⟩

/-- C4 counterexample: with the invalid configuration `target_width = 0`,
`image_to_braille` returns the empty string — no configuration error is
raised or returned — and with the invalid `threshold = 300` the `v2ba.py`
quantizer silently succeeds, turning every dot of a full block on
(`.ok [[0x28FF]]`), instead of failing fast. -/
theorem claim_C4_counterexample :
    image_to_braille (fun _ _ => []) 5 5 0 300 false = ""
    ∧ frameQuantize [[0, 0], [0, 0], [0, 0], [0, 0]] 2 1 300 = .ok [[0x28FF]] :=
  ⟨rfl, rfl⟩

/-- C4 (amended): neither conversion validates its configuration —
`target_width = 0` yields an empty output rather than a configuration
error, and an out-of-range threshold is used as-is in the comparisons
(never clamped): with `threshold > 255` and 8-bit pixel values, every dot
whose position exists is set. -/
theorem claim_C4_no_validation :
    (∀ (resize : Nat → Nat → Grid) (imgWidth imgHeight threshold : Nat)
        (invert : Bool), 0 < imgWidth →
        image_to_braille resize imgWidth imgHeight 0 threshold invert = "")
    ∧ (∀ (b : Grid) (t : Nat), Rect b → (∀ row ∈ b, ∀ v ∈ row, v ≤ 255) →
        255 < t → v2baBits b t = .ok (existBits b)) := by
  constructor
  · intro resize imgWidth imgHeight threshold invert h
    unfold image_to_braille
    rw [if_neg (Nat.pos_iff_ne_zero.mp h)]
    have hcr : charRows 0 imgHeight imgWidth = 0 := by
      unfold charRows
      simp
    rw [hcr, mainQuantize_height_zero]
    rfl
  · intro b t hb hv ht
    rw [v2baBits_spec hb, specBits_of_big hv ht]

/-- Witness for C4 at `target_width = 0` and `threshold = 300`. -/
theorem claim_C4_witness :
    image_to_braille (fun _ _ => [[1]]) 4 9 0 77 true = ""
    ∧ v2baBits [[200, 200], [200, 200]] 300
        = .ok (existBits [[200, 200], [200, 200]]) :=
  ⟨claim_C4_no_validation.1 (fun _ _ => [[1]]) 4 9 77 true (by decide),
   claim_C4_no_validation.2 [[200, 200], [200, 200]] 300 (by unfold Rect; decide)
     (by decide) (by decide)⟩

/-- C5: the pipeline computes `frame_skip = max(1, video_fps // fps)` and,
with the duration cutoff disabled, samples exactly the frames whose counter
is divisible by `frame_skip`. -/
theorem claim_C5_frame_sampling {F : Type} (frames : List F) (nf fps : Nat)
    (md : ℚ) (conv : F → String) (hfps : 0 < fps) (hmd : md ≤ 0) :
    (video_to_braille_frames frames nf fps md conv).map FrameSample.counter
      = (List.range frames.length).filter
          fun c => decide (c % max 1 (nf / fps) = 0) :=
  video_counters frames nf fps md conv hmd

/-- Witness for C5, the spec's concrete scenario: `native_fps = 30`,
`target_fps = 10`, 9 source frames ⇒ counters {0, 3, 6}, exactly 3 samples. -/
theorem claim_C5_witness :
    (video_to_braille_frames (List.replicate 9 0) 30 10 0 (fun _ => "x")).map
        FrameSample.counter = [0, 3, 6]
    ∧ (video_to_braille_frames (List.replicate 9 0) 30 10 0
        (fun _ => "x")).length = 3 := by
  have h := claim_C5_frame_sampling (List.replicate 9 (0 : Nat)) 30 10 0
    (fun _ => "x") (by norm_num) (le_refl 0)
  constructor
  · rw [h]
    decide
  · have h2 := congrArg List.length h
    rw [List.length_map] at h2
    rw [h2]
    decide

/-- C6: with `max_duration ≤ 0` the cutoff never excludes a frame (the
sampled counters are exactly the skip-filtered ones), and with
`max_duration > 0` every emitted sample has source timestamp
`counter / video_fps ≤ max_duration`. -/
theorem claim_C6_duration_cutoff {F : Type} (frames : List F) (nf fps : Nat)
    (md : ℚ) (conv : F → String) (hnf : 0 < nf) :
    (md ≤ 0 →
      (video_to_braille_frames frames nf fps md conv).map FrameSample.counter
        = (List.range frames.length).filter
            fun c => decide (c % max 1 (nf / fps) = 0))
    ∧ (0 < md → ∀ s ∈ video_to_braille_frames frames nf fps md conv,
        (s.counter : ℚ) / (nf : ℚ) ≤ md) :=
  ⟨fun hmd => video_counters frames nf fps md conv hmd,
   fun hmd s hs => pipelineLoop_cutoff conv (max 1 (nf / fps)) nf md hmd frames 0 0 s hs⟩

/-- Witness for C6: 40 source frames at 30 fps with `max_duration = 1`
second — every sampled counter has timestamp at most 1. -/
theorem claim_C6_witness :
    ((video_to_braille_frames (List.replicate 40 0) 30 10 1 (fun _ => "y")).map
        FrameSample.counter).all
      (fun c => decide ((c : ℚ) / ((30 : Nat) : ℚ) ≤ 1)) = true := by
  have h := (claim_C6_duration_cutoff (List.replicate 40 (0 : Nat)) 30 10 1
      (fun _ => "y") (by norm_num)).2 (by norm_num)
  apply List.all_eq_true.mpr
  intro c hc
  obtain ⟨s, hs, rfl⟩ := List.mem_map.mp hc
  exact decide_eq_true (h s hs)

/-- C7: compositing an image that carries no alpha channel
(`mode ∉ {RGBA, LA}`) and no palette transparency is exactly direct
grayscale conversion, for every background choice. -/
theorem claim_C7_composite_opaque (img : PILImage) (bg : Background)
    (h1 : img.mode ≠ .RGBA) (h2 : img.mode ≠ .LA)
    (h3 : ¬(img.mode = .P ∧ img.infoTransparency)) :
    composite bg img = convertL img := by
  unfold composite
  rw [if_neg]
  rintro ((h | h) | h)
  exacts [h1 h, h2 h, h3 h]

/-- Witness for C7 at a concrete opaque RGB image and white background. -/
theorem claim_C7_witness :
    composite Background.white
        ⟨PILMode.RGB, 2, 1, [[[10, 20, 30], [40, 50, 60]]], [], false⟩
      = convertL ⟨PILMode.RGB, 2, 1, [[[10, 20, 30], [40, 50, 60]]], [], false⟩ :=
  claim_C7_composite_opaque _ Background.white (by decide) (by decide) (by decide)

/-- C8: quantizing with `invert = true` equals quantizing the
pointwise-inverted buffer (each intensity replaced by `255 - v`) with
`invert = false` — the inversion of `main.py` lines 29–30 happens once,
before the loop. -/
theorem claim_C8_invert_equiv (px : Grid) (w h t : Nat) :
    mainQuantize px w h t true = mainQuantize (invertGrid px) w h t false := rfl

/-- C9: the `v2ba.py` per-frame quantizer inverts unconditionally — on
every rectangular buffer each dot at absolute position (i, j) is set
exactly when the position exists and `255 - v < threshold` for the original
intensity `v` (the function exposes no parameter to disable the inversion,
and `frame_to_braille` hard-codes the black background). -/
theorem claim_C9_unconditional_invert (px : Grid) (w h t : Nat) (hpx : Rect px) :
    frameQuantize px w h t
      = .ok ((List.range h).map fun ry =>
          (List.range ((w + 1) / 2)).map fun rx =>
            0x2800 + invBits px (ry * 4) (rx * 2) t) :=
  frameQuantize_spec hpx w h t

/-- Witness for C9 at a concrete 4×2 buffer: only the dots whose inverted
intensity is below 128 are set, giving mask 0x14 and codepoint 0x2814. -/
theorem claim_C9_witness :
    Rect [[0, 100], [50, 200], [255, 0], [30, 60]]
    ∧ frameQuantize [[0, 100], [50, 200], [255, 0], [30, 60]] 2 1 128
        = .ok [[0x2814]] := by
  refine ⟨by unfold Rect; decide, ?_⟩
  rw [claim_C9_unconditional_invert [[0, 100], [50, 200], [255, 0], [30, 60]] 2 1 128
    (by unfold Rect; decide)]
  rfl

/-- C10: `image_to_braille` is total over its error branch — for every
input it either renders a glyph grid or returns a string beginning with
`"Error: "` (the `try/except` catches the `ZeroDivisionError` of the aspect
computation and any `IndexError` of the quantizer loop). -/
theorem claim_C10_error_totality (resize : Nat → Nat → Grid)
    (imgWidth imgHeight width threshold : Nat) (invert : Bool) :
    (∃ rest, image_to_braille resize imgWidth imgHeight width threshold invert
        = "Error: " ++ rest)
    ∨ (∃ g, mainQuantize (resize width (charRows width imgHeight imgWidth * 4))
          width (charRows width imgHeight imgWidth) threshold invert = .ok g
        ∧ image_to_braille resize imgWidth imgHeight width threshold invert
            = renderGrid g) := by
  unfold image_to_braille
  by_cases h0 : imgWidth = 0
  · rw [if_pos h0]
    exact Or.inl ⟨"division by zero", rfl⟩
  · rw [if_neg h0]
    cases hq : mainQuantize (resize width (charRows width imgHeight imgWidth * 4))
        width (charRows width imgHeight imgWidth) threshold invert with
    | error e => exact Or.inl ⟨e, rfl⟩
    | ok g => exact Or.inr ⟨g, rfl, rfl⟩

end I2BA
